import Mathlib

/-!
Verification of the multiscanner repository's specification against its code.

The repository ships three source files: `tests/test_modules.py` (tests of the
module-execution engine), `multiscanner/distributed/api.py` (the HTTP layer),
and a build utility.  The engine itself (`load_module`, `_run_module`,
`_start_module_threads`) is exercised by the tests but its code is not in the
sources, so the engine is modelled from the specification; the API-layer
claims are embedded directly from `api.py`.
-/

namespace Multiscanner

/-! ## Data model of the module-execution engine -/

/-- A per-file value produced by a module: either a definitive marker
value (a match signal such as `True`) or an ordinary string output
(typically a path). -/
inductive FVal where
  | mark (b : Bool)
  | out (s : String)
deriving DecidableEq, Repr

/-- Static metadata of a module: its `{Type, Name, Include}` descriptor
fields. -/
structure ModMeta where
  mtype : String
  name : String
  incl : Bool
deriving DecidableEq, Repr

/-- A ModuleResult: the ordered `(original_path, value)` pairs plus the
static metadata. -/
structure ModuleResult where
  results : List (String × FVal)
  meta : ModMeta
deriving DecidableEq, Repr

/-- A module descriptor: name, requires list, optional replacement-path
configuration, metadata, and the module's own per-file computation. -/
structure ModuleDesc where
  requires : List String
  replacementPath : Option String
  meta : ModMeta
  ownValue : String → FVal

/-! ## Path handling of the replacement-path policy -/

/-- Whether a character is a path separator of either convention. -/
def isSep (c : Char) : Bool := c = '/' || c = '\\'

/-- Split a path into components at either separator style, since a file
list may mix posix and windows-drive-letter paths in one batch. -/
def pathComponents : List Char → List (List Char)
  | [] => [[]]
  | c :: cs =>
    let r := pathComponents cs
    if isSep c then [] :: r
    else
      match r with
      | [] => [[c]]
      | h :: t => (c :: h) :: t

/-- The base name of a path: the last component under either separator
convention. -/
def baseName (s : List Char) : List Char :=
  (pathComponents s).getLastD s

/-- The directory component of a path: everything before the final
separator, or empty when the path has no separator. -/
def dirName (s : List Char) : List Char :=
  if (pathComponents s).length ≤ 1 then []
  else s.take (s.length - (baseName s).length - 1)

/-- Join a replacement directory with a base name using the
path-separator convention of the replacement string itself: a backslash
when the replacement contains one, a forward slash otherwise. -/
def joinRepl (rep : List Char) (base : List Char) : List Char :=
  let sep : Char := if rep.any (fun c => c = '\\') then '\\' else '/'
  if rep.getLast? = some sep then rep ++ base else rep ++ [sep] ++ base

/-- Modelled from the spec: the replacement-path rewrite applied to a
freshly computed value (`_run_module` is not among the sources).  When a
replacement path is configured and the value's directory component
differs from it, the directory component is rewritten to the
replacement, joined with the base name, using the replacement string's
own separator convention.  Marker values are never rewritten. -/
def applyReplacement (rep : Option String) (v : FVal) : FVal :=
  match rep, v with
  | some r, FVal.out s =>
      if dirName s.data = r.data then FVal.out s
      else FVal.out (String.mk (joinRepl r.data (baseName s.data)))
  | _, v => v

/-! ## The Module Runner -/

/-- A run-scoped result table: module name to published ModuleResult. -/
def ResultTable := String → Option ModuleResult

/-- Whether some required dependency's published result contains an
entry (a definitive marker) for the given file. -/
def depMarked (requires : List String) (table : ResultTable) (f : String) : Bool :=
  requires.any (fun r =>
    match table r with
    | some res => res.results.any (fun p => p.1 = f)
    | none => false)

/-- Modelled from the spec: the per-file value computed by the Module
Runner (`_run_module` is not among the sources).  A file for which a
required dependency already published a definitive marker value
inherits the match signal unchanged; otherwise the module's own value
is computed and the replacement-path policy applied to it. -/
def perFileValue (mod : ModuleDesc) (table : ResultTable) (f : String) : FVal :=
  if depMarked mod.requires table f then FVal.mark true
  else applyReplacement mod.replacementPath (mod.ownValue f)

/-- Modelled from the spec: the Module Runner's `run` operation
(`_run_module` is not among the sources).  If any required module name
is absent from the active set the runner immediately resolves to the
not-run sentinel `none`; otherwise it reads the dependency table and
produces the ordered per-file pairs together with the static
metadata. -/
def run_module (mod : ModuleDesc) (activeSet : List String)
    (table : ResultTable) (fileList : List String) : Option ModuleResult :=
  if mod.requires.all (fun r => activeSet.contains r) then
    some ⟨fileList.map (fun f => (f, perFileValue mod table f)), mod.meta⟩
  else
    none

/-! ## Concrete fixtures mirroring `tests/test_modules.py` -/

/-- Metadata of the test_2 module from the test suite. -/
def test2meta : ModMeta := ⟨"Test", "test_2", true⟩

/-- The test_2 module: requires test_1, computes the file name itself as
its own per-file value, with a configurable replacement path. -/
def test2mod (rep : Option String) : ModuleDesc :=
  ⟨["test_1"], rep, test2meta, fun f => FVal.out f⟩

/-- The dependency table of the tests: test_1 published entries for
`"a"` and `"C:\\c"` only. -/
def testTable : ResultTable := fun n =>
  if n = "test_1" then
    some ⟨[("a", FVal.out "a"), ("C:\\c", FVal.out "c")], ⟨"Test", "test_1", false⟩⟩
  else none

/-- The file list of the tests. -/
def testFiles : List String := ["a", "b", "C:\\c", "/d/d"]

/-- The active module set of the tests. -/
def testActive : List String := ["test_2", "test_1"]

/-! ## Module Loader -/

/-- An error reported while parsing a module file that was found. -/
inductive LoadError where
  | parseError (msg : String)
deriving DecidableEq, Repr

/-- Modelled from the spec: a search directory as the Module Loader sees
it (`load_module` is not among the sources) — the module names present
in the directory, each with the outcome of parsing its module file. -/
structure ModuleDir where
  entries : List (String × Except LoadError ModMeta)

/-- Modelled from the spec: the Module Loader's `load(name, searchPaths)`
operation (`load_module` is not among the sources).  It scans the search
paths in order; an unknown name yields the not-found sentinel `none`
(never an error), and only a structural/parse error of a found module
file is reported as a load error. -/
def load_module (name : String) : List ModuleDir → Except LoadError (Option ModMeta)
  | [] => .ok none
  | d :: rest =>
    match d.entries.find? (fun p => p.1 == name) with
    | some (_, .ok m) => .ok (some m)
    | some (_, .error e) => .error e
    | none => load_module name rest

/-! ## STIX2 endpoint label handling (api.py) -/

/-- Python's `str.split(sep)` for a one-character separator, over the
character list of the string: the result always has at least one
element (`"".split(",")` is `[""]`). -/
def pySplit (sep : Char) : List Char → List (List Char)
  | [] => [[]]
  | c :: cs =>
    let r := pySplit sep cs
    if c = sep then [] :: r
    else
      match r with
      | [] => [[c]]
      | h :: t => (c :: h) :: t

/-- The label list parsed from the request in the STIX2 handlers:
`request.args.get('custom_labels', default='', type=str).split(",")`. -/
def parsed_custom_labels (q : Option (List Char)) : List (List Char) :=
  pySplit ',' (q.getD [])

/-- The guard `custom_labels or all(custom_labels) is False` of the
STIX2 handlers under Python truthiness: a list is truthy when
non-empty, and `all` is `False` when some element is the empty
string. -/
def clearLabelsGuard (labels : List (List Char)) : Bool :=
  !labels.isEmpty || !(labels.all (fun s => !s.isEmpty))

/-- The label list the STIX2 handlers actually pass to
`create_stix2_from_json_report`: reset to `[]` whenever the guard
holds. -/
def final_custom_labels (q : Option (List Char)) : List (List Char) :=
  let c := parsed_custom_labels q
  if clearLabelsGuard c then [] else c

/-! ## SHA-256 parameter validation (api.py) -/

/-- Whether a character belongs to the class `[a-fA-F0-9]`. -/
def isHexDigit (c : Char) : Bool :=
  ('0' ≤ c && c ≤ '9') || ('a' ≤ c && c ≤ 'f') || ('A' ≤ c && c ≤ 'F')

/-- Python's `re.match(r'^[a-fA-F0-9]{64}$', s)` as a Boolean: sixty-four
characters of the class anchored at the start, with `$` matching at the
end of the string or just before one trailing newline (Python `$`
semantics). -/
def re_match_hex64 (s : List Char) : Bool :=
  decide ((s.take 64).length = 64) && (s.take 64).all isHexDigit &&
    (decide (s.drop 64 = []) || decide (s.drop 64 = ['\n']))

/-- What a sha256 handler does with its argument: reach storage (the
upload folder or the task database) or abort with HTTP 400. -/
inductive HandlerAction where
  | storageAccess (sha256 : List Char)
  | abortBadRequest
deriving DecidableEq, Repr

/-- The `files_get_sha256` handler of api.py: on a regex match it calls
`files_get_sha256_helper`, which opens the stored sample; otherwise it
aborts with `HTTP_BAD_REQUEST`. -/
def files_get_sha256 (sha256 : List Char) : HandlerAction :=
  if re_match_hex64 sha256 then HandlerAction.storageAccess sha256
  else HandlerAction.abortBadRequest

/-- The `get_task_sha256` handler of api.py: on a regex match it queries
the task database via `db.exists`; otherwise it aborts with
`HTTP_BAD_REQUEST`. -/
def get_task_sha256 (sha256 : List Char) : HandlerAction :=
  if re_match_hex64 sha256 then HandlerAction.storageAccess sha256
  else HandlerAction.abortBadRequest

/-- The claim's validity predicate: the argument consists of exactly 64
hexadecimal characters. -/
def isStrictHex64 (s : List Char) : Bool :=
  decide (s.length = 64) && s.all isHexDigit

/-! ## Task queueing (api.py) -/

/-- The task database: the recorded `(task_id, sample_sha256)` rows,
newest first, and the next id the autoincrement will assign. -/
structure TaskDB where
  tasks : List (Nat × List Char)
  nextId : Nat
deriving DecidableEq, Repr

/-- Modelled from the spec: `db.exists(sha256)` returns the task id of
the most recent scan recorded for the sample, if any (the database
layer is not among the sources). -/
def db_exists (db : TaskDB) (sha256 : List Char) : Option Nat :=
  (db.tasks.find? (fun t => t.2 == sha256)).map (fun t => t.1)

/-- Modelled from the spec: `db.add_task(sample_id=...)` records a new
task row and returns the fresh autoincremented id (the database layer
is not among the sources). -/
def db_add_task (db : TaskDB) (sha256 : List Char) : Nat × TaskDB :=
  (db.nextId, ⟨(db.nextId, sha256) :: db.tasks, db.nextId + 1⟩)

/-- The state `queue_task` touches: the task database and the queue of
scan work items. -/
structure ApiState where
  db : TaskDB
  workQueue : List (Nat × List Char)
deriving DecidableEq, Repr

/-- The fresh-task path of `queue_task`: add a task row to the database
and put the scan work on the queue under the fresh id. -/
def queueFresh (st : ApiState) (f_name : List Char) : Nat × ApiState :=
  ((db_add_task st.db f_name).1,
   ⟨(db_add_task st.db f_name).2,
    st.workQueue ++ [((db_add_task st.db f_name).1, f_name)]⟩)

/-- The `queue_task` function of api.py: without `rescan`, a recorded
(truthy) task id for the sample is returned as is; otherwise a task row
is added and the scan work enqueued under the fresh id. -/
def queue_task (st : ApiState) (f_name : List Char) (rescan : Bool) : Nat × ApiState :=
  if rescan then queueFresh st f_name
  else
    match db_exists st.db f_name with
    | some t => if t != 0 then (t, st) else queueFresh st f_name
    | none => queueFresh st f_name

/-- Well-formed task database: ids are positive and below the
autoincrement counter. -/
def TaskDB.WF (db : TaskDB) : Prop :=
  0 < db.nextId ∧ ∀ p ∈ db.tasks, 0 < p.1 ∧ p.1 < db.nextId

/-! ## Helper lemmas -/

/-- Python `split` never yields the empty list. -/
theorem pySplit_ne_nil (sep : Char) (s : List Char) : pySplit sep s ≠ [] := by
  cases s with
  | nil => simp [pySplit]
  | cons c cs =>
    unfold pySplit
    by_cases h : c = sep
    · simp [h]
    · rw [if_neg h]
      cases pySplit sep cs <;> simp

/-- Characterization of the Python regex match: the argument is 64 hex
characters, optionally followed by one trailing newline. -/
theorem re_match_hex64_iff (s : List Char) :
    re_match_hex64 s = true ↔
      ∃ t, isStrictHex64 t = true ∧ (s = t ∨ s = t ++ ['\n']) := by
  unfold re_match_hex64 isStrictHex64
  constructor
  · intro h
    simp only [Bool.and_eq_true, Bool.or_eq_true, decide_eq_true_eq] at h
    obtain ⟨⟨hlen, hhex⟩, hrest⟩ := h
    refine ⟨s.take 64, ?_, ?_⟩
    · simp only [Bool.and_eq_true, decide_eq_true_eq]
      exact ⟨hlen, hhex⟩
    · rcases hrest with h | h
      · left
        conv_lhs => rw [← List.take_append_drop 64 s]
        rw [h, List.append_nil]
      · right
        conv_lhs => rw [← List.take_append_drop 64 s]
        rw [h]
  · rintro ⟨t, ht, rfl | rfl⟩
    · simp only [Bool.and_eq_true, decide_eq_true_eq] at ht
      obtain ⟨hlen, hhex⟩ := ht
      have htake : s.take 64 = s := by rw [← hlen]; exact List.take_length s
      have hdrop : s.drop 64 = [] := by rw [← hlen]; exact List.drop_length s
      simp [htake, hdrop, hlen, hhex]
    · simp only [Bool.and_eq_true, decide_eq_true_eq] at ht
      obtain ⟨hlen, hhex⟩ := ht
      have htake : (t ++ ['\n']).take 64 = t := List.take_left' hlen
      have hdrop : (t ++ ['\n']).drop 64 = ['\n'] := List.drop_left' hlen
      simp [htake, hdrop, hlen, hhex]

/-- When every required module is active, the runner publishes the
mapped per-file pairs with the static metadata. -/
theorem run_module_eq_of_active (mod : ModuleDesc) (activeSet : List String)
    (table : ResultTable) (fileList : List String)
    (hact : ∀ r ∈ mod.requires, r ∈ activeSet) :
    run_module mod activeSet table fileList =
      some ⟨fileList.map (fun f => (f, perFileValue mod table f)), mod.meta⟩ := by
  unfold run_module
  rw [if_pos]
  rw [List.all_eq_true]
  intro r hr
  simpa using hact r hr

/-- Looking up a key of the input list in the association list built by
pairing each input with a function of it returns that function value. -/
theorem lookup_map_pair {g : String → FVal} {l : List String} {f : String} (hf : f ∈ l) :
    (l.map (fun x => (x, g x))).lookup f = some (g f) := by
  induction l with
  | nil => cases hf
  | cons a l ih =>
    rw [List.map_cons, List.lookup_cons]
    by_cases h : f = a
    · subst h; simp
    · have hb : (f == a) = false := beq_false_of_ne h
      rw [hb]
      exact ih ((List.mem_cons.mp hf).resolve_left h)

/-- The value a published ModuleResult holds for a given file. -/
def valueAt (res : Option ModuleResult) (f : String) : Option FVal :=
  res.bind (fun r => r.results.lookup f)

/-! ## Scheduler -/

/-- Modelled from the spec: the view of a module the Scheduler needs —
its name and requires list (`_start_module_threads` is not among the
sources). -/
structure SchedModule where
  name : String
  requires : List String

/-- The names of the active module set. -/
def activeNames (mods : List SchedModule) : List String := mods.map (·.name)

/-- Modelled from the spec: the Scheduler's `start` operation spawns one
concurrent worker per active module (`_start_module_threads` is not
among the sources); a worker handle is identified by its module's
name. -/
def start_module_threads (mods : List SchedModule) : List String := activeNames mods

/-- Modelled from the spec: the worker handles that have reached a
terminal (finished/skipped/failed) state within `k` scheduler rounds.
A worker terminates in a round once some required name is absent from
the active set (immediate skip) or every required name was published in
an earlier round. -/
def terminalAfter (mods : List SchedModule) : Nat → List String
  | 0 => []
  | k + 1 =>
    (mods.filter (fun m =>
      m.requires.any (fun r => !(activeNames mods).contains r) ||
      m.requires.all (fun r => (terminalAfter mods k).contains r))).map (·.name)

/-- With an acyclic requires relation (witnessed by a rank function),
every module's worker is terminal within `rank + 1` rounds. -/
theorem terminal_within_rank (mods : List SchedModule) (rank : String → Nat)
    (hacyc : ∀ m ∈ mods, ∀ r ∈ m.requires, r ∈ activeNames mods → rank r < rank m.name) :
    ∀ n, ∀ m ∈ mods, rank m.name < n → m.name ∈ terminalAfter mods n := by
  intro n
  induction n using Nat.strong_induction_on with
  | _ n ih =>
    intro m hm hrank
    match n, hrank with
    | Nat.succ k, hrank =>
      unfold terminalAfter
      apply List.mem_map_of_mem (fun x : SchedModule => x.name)
      rw [List.mem_filter]
      refine ⟨hm, ?_⟩
      rw [Bool.or_eq_true]
      by_cases hmiss : ∀ r ∈ m.requires, r ∈ activeNames mods
      · right
        rw [List.all_eq_true]
        intro r hr
        have hrlt : rank r < k :=
          Nat.lt_of_lt_of_le (hacyc m hm r hr (hmiss r hr)) (Nat.lt_succ_iff.mp hrank)
        obtain ⟨m', hm', hname⟩ := List.mem_map.mp (hmiss r hr)
        have : m'.name ∈ terminalAfter mods k :=
          ih k (Nat.lt_succ_self k) m' hm' (by rw [hname]; exact hrlt)
        rw [hname] at this
        simpa using this
      · left
        push_neg at hmiss
        obtain ⟨r, hr, hnot⟩ := hmiss
        rw [List.any_eq_true]
        exact ⟨r, hr, by simpa using hnot⟩

/-! ## Theorems for the claims -/

/-- C1: the Module Runner's run over file list `["a","b","C:\\c","/d/d"]`
with test_1 publishing entries for `"a"` and `"C:\\c"` yields, with
replacement path `/tmp`, the pairs
`[("a",True),("b","/tmp/b"),("C:\\c",True),("/d/d","/tmp/d")]`, and with
replacement path `X:\`, the pairs
`[("a",True),("b","X:\\b"),("C:\\c",True),("/d/d","X:\\d")]`; the
directory component of each freshly computed value follows the
separator convention of the replacement string itself. -/
theorem c1_replacement_path_examples :
    run_module (test2mod (some "/tmp")) testActive testTable testFiles =
      some ⟨[("a", FVal.mark true), ("b", FVal.out "/tmp/b"),
             ("C:\\c", FVal.mark true), ("/d/d", FVal.out "/tmp/d")], test2meta⟩ ∧
    run_module (test2mod (some "X:\\")) testActive testTable testFiles =
      some ⟨[("a", FVal.mark true), ("b", FVal.out "X:\\b"),
             ("C:\\c", FVal.mark true), ("/d/d", FVal.out "X:\\d")], test2meta⟩ := by
  constructor <;> decide

/-- C2: a module with a required name absent from the active set
resolves immediately to the not-run sentinel `none`, for every
dependency table and file list — it neither runs the module body nor
blocks on the table. -/
theorem c2_missing_requirement_skips (mod : ModuleDesc) (activeSet : List String)
    (table : ResultTable) (fileList : List String) (r : String)
    (hr : r ∈ mod.requires) (hnot : r ∉ activeSet) :
    run_module mod activeSet table fileList = none := by
  unfold run_module
  rw [if_neg]
  intro hall
  rw [List.all_eq_true] at hall
  have h := hall r hr
  simp only [List.contains_cons] at h
  exact hnot (by simpa using h)

/-- Witness for C2 at the test fixture: test_2 requires test_1, which is
absent from the active set `["test_2"]`, so the run yields `none`. -/
theorem c2_missing_requirement_skips_witness :
    "test_1" ∈ (test2mod none).requires ∧ "test_1" ∉ (["test_2"] : List String) ∧
    run_module (test2mod none) ["test_2"] testTable testFiles = none :=
  ⟨by decide, by decide,
   c2_missing_requirement_skips (test2mod none) ["test_2"] testTable testFiles
     "test_1" (by decide) (by decide)⟩

/-- C3: a file for which a required dependency already published a
definitive marker value receives the inherited match signal unchanged,
whatever replacement path is configured — the replacement-path rewrite
is never applied to an inherited value. -/
theorem c3_inherited_value_unchanged (mod : ModuleDesc) (activeSet : List String)
    (table : ResultTable) (fileList : List String) (f : String)
    (rep rep2 : Option String)
    (hact : ∀ r ∈ mod.requires, r ∈ activeSet)
    (hf : f ∈ fileList)
    (hdep : depMarked mod.requires table f = true) :
    valueAt (run_module { mod with replacementPath := rep } activeSet table fileList) f
      = some (FVal.mark true) ∧
    valueAt (run_module { mod with replacementPath := rep } activeSet table fileList) f
      = valueAt (run_module { mod with replacementPath := rep2 } activeSet table fileList) f := by
  have key : ∀ rp : Option String,
      valueAt (run_module { mod with replacementPath := rp } activeSet table fileList) f
        = some (FVal.mark true) := by
    intro rp
    rw [run_module_eq_of_active { mod with replacementPath := rp } activeSet table fileList hact]
    unfold valueAt
    rw [Option.some_bind]
    rw [lookup_map_pair hf]
    unfold perFileValue
    rw [if_pos hdep]
  exact ⟨key rep, (key rep).trans (key rep2).symm⟩

/-- Witness for C3 at the test fixture: file `"a"` has a published
test_1 entry, so test_2's value for it is the unchanged marker `True`
under replacement paths `/tmp` and `X:\` alike. -/
theorem c3_inherited_value_unchanged_witness :
    (∀ r ∈ (test2mod (some "/tmp")).requires, r ∈ testActive) ∧
    "a" ∈ testFiles ∧
    depMarked (test2mod (some "/tmp")).requires testTable "a" = true ∧
    (valueAt (run_module { test2mod (some "/tmp") with replacementPath := some "/tmp" }
        testActive testTable testFiles) "a" = some (FVal.mark true) ∧
     valueAt (run_module { test2mod (some "/tmp") with replacementPath := some "/tmp" }
        testActive testTable testFiles) "a"
       = valueAt (run_module { test2mod (some "/tmp") with replacementPath := some "X:\\" }
        testActive testTable testFiles) "a") :=
  ⟨by decide, by decide, by decide,
   c3_inherited_value_unchanged (test2mod (some "/tmp")) testActive testTable testFiles
     "a" (some "/tmp") (some "X:\\") (by decide) (by decide) (by decide)⟩

/-- C4: whenever a run returns a ModuleResult, its metadata equals the
module's static descriptor fields, independent of the file list. -/
theorem c4_metadata_static (mod : ModuleDesc) (activeSet : List String)
    (table : ResultTable) (fileList : List String) (res : ModuleResult)
    (h : run_module mod activeSet table fileList = some res) :
    res.meta = mod.meta := by
  unfold run_module at h
  split at h
  · cases h; rfl
  · cases h

/-- Witness for C4 at the test fixture. -/
theorem c4_metadata_static_witness :
    ({ results := [("a", FVal.mark true), ("b", FVal.out "b"),
                   ("C:\\c", FVal.mark true), ("/d/d", FVal.out "/d/d")],
       meta := test2meta } : ModuleResult).meta = (test2mod none).meta :=
  c4_metadata_static (test2mod none) testActive testTable testFiles _ (by decide)

/-- C5: loading a name absent from every search directory returns the
not-found sentinel `ok none`; no error is reported. -/
theorem c5_unknown_name_sentinel (name : String) (searchPaths : List ModuleDir)
    (h : ∀ d ∈ searchPaths, ∀ p ∈ d.entries, p.1 ≠ name) :
    load_module name searchPaths = .ok none := by
  induction searchPaths with
  | nil => rfl
  | cons d rest ih =>
    unfold load_module
    have hfind : d.entries.find? (fun p => p.1 == name) = none := by
      rw [List.find?_eq_none]
      intro p hp
      simpa using h d (List.mem_cons_self d rest) p hp
    rw [hfind]
    exact ih (fun d' hd' => h d' (List.mem_cons_of_mem d hd'))

/-- Witness for C5: the name `notathing` is absent from a directory
holding test_1 and test_2, so the load returns the sentinel. -/
theorem c5_unknown_name_sentinel_witness :
    load_module "notathing"
      [⟨[("test_1", Except.ok ⟨"Test", "test_1", false⟩),
         ("test_2", Except.ok test2meta)]⟩] = .ok none :=
  c5_unknown_name_sentinel "notathing" _ (by decide)

/-- C6: the ordered pairs of a returned ModuleResult list exactly the
input file list's paths, in input order; with distinct inputs each path
occurs exactly once. -/
theorem c6_result_order_mirrors_input (mod : ModuleDesc) (activeSet : List String)
    (table : ResultTable) (fileList : List String) (res : ModuleResult)
    (h : run_module mod activeSet table fileList = some res) :
    res.results.map Prod.fst = fileList ∧
    (fileList.Nodup → ∀ f ∈ fileList, (res.results.map Prod.fst).count f = 1) := by
  have hmap : res.results.map Prod.fst = fileList := by
    unfold run_module at h
    split at h
    · cases h
      rw [List.map_map]
      have hid : (Prod.fst ∘ fun f => (f, perFileValue mod table f)) = id := rfl
      rw [hid, List.map_id]
    · cases h
  refine ⟨hmap, fun hnd f hf => ?_⟩
  rw [hmap]
  exact List.count_eq_one_of_mem hnd hf

/-- Witness for C6 at the test fixture. -/
theorem c6_result_order_mirrors_input_witness :
    ({ results := [("a", FVal.mark true), ("b", FVal.out "b"),
                   ("C:\\c", FVal.mark true), ("/d/d", FVal.out "/d/d")],
       meta := test2meta } : ModuleResult).results.map Prod.fst = testFiles ∧
    (testFiles.Nodup → ∀ f ∈ testFiles,
      (({ results := [("a", FVal.mark true), ("b", FVal.out "b"),
                      ("C:\\c", FVal.mark true), ("/d/d", FVal.out "/d/d")],
          meta := test2meta } : ModuleResult).results.map Prod.fst).count f = 1) :=
  c6_result_order_mirrors_input (test2mod none) testActive testTable testFiles _ (by decide)

/-- C7: after the Scheduler spawns one worker per active module, every
worker handle reaches a terminal (finished/skipped/failed) state within
a bounded number of rounds — the bound `B` dominating the acyclicity
rank of the active set — so no worker waits forever. -/
theorem c7_workers_reach_terminal (mods : List SchedModule) (rank : String → Nat) (B : Nat)
    (hacyc : ∀ m ∈ mods, ∀ r ∈ m.requires, r ∈ activeNames mods → rank r < rank m.name)
    (hbound : ∀ m ∈ mods, rank m.name < B)
    (w : String) (hw : w ∈ start_module_threads mods) :
    w ∈ terminalAfter mods B := by
  obtain ⟨m, hm, rfl⟩ := List.mem_map.mp hw
  exact terminal_within_rank mods rank hacyc B m hm (hbound m hm)

/-- Witness for C7: a two-module chain (test_2 requires test_1) with the
evident rank; the dependent worker's handle is terminal within two
rounds. -/
theorem c7_workers_reach_terminal_witness :
    "test_2" ∈ start_module_threads [⟨"test_1", []⟩, ⟨"test_2", ["test_1"]⟩] ∧
    "test_2" ∈ terminalAfter [⟨"test_1", []⟩, ⟨"test_2", ["test_1"]⟩] 2 :=
  ⟨by decide,
   c7_workers_reach_terminal [⟨"test_1", []⟩, ⟨"test_2", ["test_1"]⟩]
     (fun s => if s = "test_2" then 1 else 0) 2
     (by decide) (by decide) "test_2" (by decide)⟩

/-- C8: the label list of the STIX2 report endpoints is parsed to a
non-empty list by `split(",")`, so the clearing guard always fires and
the labels handed to generation are always empty — two requests that
differ only in `custom_labels` produce identical STIX objects. -/
theorem c8_custom_labels_never_influence {α β : Type} (g : α → List (List Char) → β)
    (report : α) (q1 q2 : Option (List Char)) :
    parsed_custom_labels q1 ≠ [] ∧
    final_custom_labels q1 = [] ∧
    g report (final_custom_labels q1) = g report (final_custom_labels q2) := by
  have hne : ∀ q : Option (List Char), parsed_custom_labels q ≠ [] := fun q =>
    pySplit_ne_nil ',' (q.getD [])
  have hfin : ∀ q : Option (List Char), final_custom_labels q = [] := by
    intro q
    have hg : clearLabelsGuard (parsed_custom_labels q) = true := by
      obtain ⟨h, t, heq⟩ := List.exists_cons_of_ne_nil (hne q)
      rw [clearLabelsGuard, heq]
      simp
    unfold final_custom_labels
    rw [if_pos hg]
  exact ⟨hne q1, hfin q1, by rw [hfin q1, hfin q2]⟩

/-- C9 counterexample: sixty-four `f` characters followed by a newline
are not a 64-character hexadecimal string, yet both handlers perform
the storage access instead of aborting, because Python's `$` also
matches just before one trailing newline. -/
theorem c9_counterexample :
    isStrictHex64 (List.replicate 64 'f' ++ ['\n']) = false ∧
    files_get_sha256 (List.replicate 64 'f' ++ ['\n']) =
      HandlerAction.storageAccess (List.replicate 64 'f' ++ ['\n']) ∧
    get_task_sha256 (List.replicate 64 'f' ++ ['\n']) =
      HandlerAction.storageAccess (List.replicate 64 'f' ++ ['\n']) := by
  refine ⟨by decide, ?_, ?_⟩ <;> decide

/-- C9 (amended): each handler performs its storage access exactly when
the argument is 64 hexadecimal characters optionally followed by one
trailing newline — the strings accepted by `re.match` under Python's
`$` semantics; every other string is aborted with HTTP 400. -/
theorem c9_validation_guards_storage (s : List Char) :
    (files_get_sha256 s = HandlerAction.storageAccess s ↔
      ∃ t, isStrictHex64 t = true ∧ (s = t ∨ s = t ++ ['\n'])) ∧
    (get_task_sha256 s = HandlerAction.storageAccess s ↔
      ∃ t, isStrictHex64 t = true ∧ (s = t ∨ s = t ++ ['\n'])) := by
  have key : ∀ s' : List Char,
      ((if re_match_hex64 s' then HandlerAction.storageAccess s'
        else HandlerAction.abortBadRequest) = HandlerAction.storageAccess s')
        ↔ re_match_hex64 s' = true := by
    intro s'
    cases hre : re_match_hex64 s' <;> simp [hre]
  constructor
  · unfold files_get_sha256
    rw [key s]
    exact re_match_hex64_iff s
  · unfold get_task_sha256
    rw [key s]
    exact re_match_hex64_iff s

/-- C10: with `rescan` false, a sample whose hash already has a recorded
task gets the existing task id back with no database write and no
enqueue, and submitting the same sample twice yields the same task id
with the second call changing nothing. -/
theorem c10_queue_task_idempotent (st : ApiState) (f_name : List Char)
    (hwf : st.db.WF) :
    (∀ t, db_exists st.db f_name = some t → queue_task st f_name false = (t, st)) ∧
    queue_task (queue_task st f_name false).2 f_name false
      = ((queue_task st f_name false).1, (queue_task st f_name false).2) := by
  have hstep : ∀ st' : ApiState, queue_task st' f_name false
      = match db_exists st'.db f_name with
        | some t => if t != 0 then (t, st') else queueFresh st' f_name
        | none => queueFresh st' f_name := fun _ => rfl
  have hpos : ∀ t, db_exists st.db f_name = some t → 0 < t := by
    intro t ht
    unfold db_exists at ht
    obtain ⟨p, hp, hpt⟩ := Option.map_eq_some'.mp ht
    have hmem := List.mem_of_find?_eq_some hp
    have := (hwf.2 p hmem).1
    rw [hpt] at this
    exact this
  have hfirst : ∀ t, db_exists st.db f_name = some t → queue_task st f_name false = (t, st) := by
    intro t ht
    have htne : (t != 0) = true := by
      simpa using Nat.pos_iff_ne_zero.mp (hpos t ht)
    rw [hstep st, ht]
    show (if (t != 0) = true then (t, st) else queueFresh st f_name) = (t, st)
    rw [if_pos htne]
  refine ⟨hfirst, ?_⟩
  cases hex : db_exists st.db f_name with
  | some t =>
    rw [hfirst t hex]
    exact hfirst t hex
  | none =>
    have heq : queue_task st f_name false = queueFresh st f_name := by
      rw [hstep st, hex]
    rw [heq]
    have hex2 : db_exists (queueFresh st f_name).2.db f_name = some st.db.nextId := by
      unfold queueFresh db_add_task db_exists
      simp
    rw [hstep (queueFresh st f_name).2, hex2]
    have hne : (st.db.nextId != 0) = true := by
      simpa using Nat.pos_iff_ne_zero.mp hwf.1
    show (if (st.db.nextId != 0) = true
          then (st.db.nextId, (queueFresh st f_name).2)
          else queueFresh (queueFresh st f_name).2 f_name)
        = ((queueFresh st f_name).1, (queueFresh st f_name).2)
    rw [if_pos hne]
    rfl

/-- Witness for C10 at a one-task database: resubmitting the sample
`"a"` returns the recorded task id 1, and a second submission of a
fresh sample state changes nothing. -/
theorem c10_queue_task_idempotent_witness :
    TaskDB.WF ⟨[(1, ['a'])], 2⟩ ∧
    queue_task ⟨⟨[(1, ['a'])], 2⟩, []⟩ ['a'] false = (1, ⟨⟨[(1, ['a'])], 2⟩, []⟩) ∧
    queue_task (queue_task ⟨⟨[(1, ['a'])], 2⟩, []⟩ ['a'] false).2 ['a'] false
      = ((queue_task ⟨⟨[(1, ['a'])], 2⟩, []⟩ ['a'] false).1,
         (queue_task ⟨⟨[(1, ['a'])], 2⟩, []⟩ ['a'] false).2) :=
  ⟨by constructor
      · decide
      · intro p hp
        simp only [List.mem_singleton] at hp
        rw [hp]
        exact ⟨by decide, by decide⟩,
   (c10_queue_task_idempotent ⟨⟨[(1, ['a'])], 2⟩, []⟩ ['a']
      ⟨by decide, by intro p hp
                     simp only [List.mem_singleton] at hp
                     rw [hp]
                     exact ⟨by decide, by decide⟩⟩).1 1 rfl,
   (c10_queue_task_idempotent ⟨⟨[(1, ['a'])], 2⟩, []⟩ ['a']
      ⟨by decide, by intro p hp
                     simp only [List.mem_singleton] at hp
                     rw [hp]
                     exact ⟨by decide, by decide⟩⟩).2⟩

end Multiscanner
